import Mathlib

/-!
Verification of `src/backend/langflow/interface/initialize/loading.py`:
the type-directed component instantiation engine (parameter normalizer,
type registry lookup, category adapters, graph rewriter, executable agent
builder).

The Python functions are shallowly embedded as pure Lean functions.
Python dicts are modelled as association lists preserving insertion order
(dict assignment to an existing key keeps the key's position; assignment
of a new key appends).  External collaborators (the class library behind
`import_by_type`, the `json.loads` decoder, the underlying constructor of
an embedding class, the document loader's `load()` and the langchain
agent/executor constructors) are parameters of the embedding or are
modelled from the spec where noted.

Partial Python lookups (`d[k]` raising `KeyError`) are modelled totally:
string extraction defaults to `""` and membership tests to `false`; the
theorems below are stated on inputs where the Python code would not
raise, matching the totalization on that domain.
-/

/-- `leadsWith needle hay` : `needle` is an initial segment of `hay`
(character lists). -/
def leadsWith : List Char → List Char → Bool
  | [], _ => true
  | _ :: _, [] => false
  | a :: as, b :: bs => a == b && leadsWith as bs

/-- `hasSub needle hay` : `needle` occurs as a contiguous substring of
`hay`.  Models Python's `needle in hay` on strings. -/
def hasSub (needle : List Char) : List Char → Bool
  | [] => leadsWith needle []
  | c :: rest => leadsWith needle (c :: rest) || hasSub needle rest

/-- JSON-shaped values making up a flow-document node (the graph
rewriter's input).  `obj` is a Python dict as an ordered association
list. -/
inductive JValue where
  | str (s : String)
  | bool (b : Bool)
  | null
  | list (xs : List JValue)
  | obj (fields : List (String × JValue))

namespace JValue

/-- Dict field lookup (first matching key). -/
def lookupField : List (String × JValue) → String → Option JValue
  | [], _ => none
  | (k, v) :: rest, key => if k == key then some v else lookupField rest key

/-- `d[k]` on a dict value; `none` where Python would raise
`KeyError`/`TypeError`. -/
def lookup : JValue → String → Option JValue
  | .obj fields, key => lookupField fields key
  | _, _ => none

/-- Dict assignment `d[k] = v`: replace in place if the key exists
(keeping its position, as CPython does), else append. -/
def setField : List (String × JValue) → String → JValue → List (String × JValue)
  | [], key, v => [(key, v)]
  | (k, w) :: rest, key, v =>
      if k == key then (key, v) :: rest else (k, w) :: setField rest key v

/-- `d[k] = v` on a dict value; non-dicts are returned unchanged (Python
would raise there; no modelled code path does that). -/
def set : JValue → String → JValue → JValue
  | .obj fields, key, v => .obj (setField fields key v)
  | j, _, _ => j

/-- Iterated lookup along a key path, e.g. `node["data"]["type"]`. -/
def getAt : JValue → List String → Option JValue
  | j, [] => some j
  | j, k :: ks =>
      match j.lookup k with
      | some v => v.getAt ks
      | none => none

/-- String at a key path, defaulting to `""` when absent or not a
string. -/
def getStrAt (j : JValue) (path : List String) : String :=
  match j.getAt path with
  | some (.str s) => s
  | _ => ""

/-- `isStrAt j path s` : the value at `path` is the string `s`. -/
def isStrAt (j : JValue) (path : List String) (s : String) : Bool :=
  match j.getAt path with
  | some (.str t) => t == s
  | _ => false

end JValue

/-- Python `s in xs` for a list of JSON values, matching only string
elements (the modelled `base_classes` lists hold strings). -/
def strInList (s : String) : List JValue → Bool
  | [] => false
  | .str t :: rest => t == s || strInList s rest
  | _ :: rest => strInList s rest

/-- The scan condition of the rewriter:
`node["data"]["type"] == "ZeroShotPrompt"`. -/
def isZeroShot (node : JValue) : Bool :=
  JValue.isStrAt node ["data", "type"] "ZeroShotPrompt"

/-- The tool filter of the rewriter:
`tool["type"] != "chatOutputNode" and "Tool" in
tool["data"]["node"]["base_classes"]`. -/
def isToolNode (tool : JValue) : Bool :=
  !(JValue.isStrAt tool ["type"] "chatOutputNode") &&
    (match JValue.getAt tool ["data", "node", "base_classes"] with
     | some (.list bcs) => strInList "Tool" bcs
     | _ => false)

/-- An opening brace character (written via its code point). -/
def lbrace : Char := Char.ofNat 123

/-- A closing brace character (written via its code point). -/
def rbrace : Char := Char.ofNat 125

/-- The placeholder pattern `\x7btool_names\x7d` substituted by
`str.format(tool_names=...)` in `build_prompt_template`. -/
def toolNamesPat : List Char := lbrace :: ("tool_names".toList ++ [rbrace])

/-- Substitution worker: replaces each occurrence of `toolNamesPat` with
`sub`.  The fuel argument (instantiated with the input length) only makes
the recursion structural; each step consumes at least one character, so
fuel never runs out. -/
def substTNAux (sub : List Char) : Nat → List Char → List Char
  | 0, l => l
  | _ + 1, [] => []
  | fuel + 1, c :: cs =>
      if leadsWith toolNamesPat (c :: cs) then
        sub ++ substTNAux sub fuel (cs.drop 11)
      else c :: substTNAux sub fuel cs

/-- Models `format_instructions.format(tool_names=tool_names)`: every
occurrence of the `tool_names` placeholder is replaced by `sub` (the
modelled format strings contain no other format fields or brace
escapes). -/
def substToolNames (fmt sub : String) : String :=
  (substTNAux sub.toList fmt.toList.length fmt.toList).asString

/-- The canonical prompt-template node dict assigned to `prompt["node"]`
by `build_prompt_template`, carrying the synthesized template string
(field names, flags and the two `multline` typos transcribed from the
source). -/
def promptTemplateNode (value : String) : JValue :=
  .obj [
    ("template", .obj [
      ("_type", .str "prompt"),
      ("input_variables", .obj [
        ("type", .str "str"), ("required", .bool true), ("placeholder", .str ""),
        ("list", .bool true), ("show", .bool false), ("multiline", .bool false)]),
      ("output_parser", .obj [
        ("type", .str "BaseOutputParser"), ("required", .bool false),
        ("placeholder", .str ""), ("list", .bool false), ("show", .bool false),
        ("multline", .bool false), ("value", .null)]),
      ("template", .obj [
        ("type", .str "str"), ("required", .bool true), ("placeholder", .str ""),
        ("list", .bool false), ("show", .bool true), ("multiline", .bool true),
        ("value", .str value)]),
      ("template_format", .obj [
        ("type", .str "str"), ("required", .bool false), ("placeholder", .str ""),
        ("list", .bool false), ("show", .bool false), ("multline", .bool false),
        ("value", .str "f-string")]),
      ("validate_template", .obj [
        ("type", .str "bool"), ("required", .bool false), ("placeholder", .str ""),
        ("list", .bool false), ("show", .bool false), ("multline", .bool false),
        ("value", .bool true)])]),
    ("description", .str "Schema to represent a prompt for an LLM."),
    ("base_classes", .list [.str "BasePromptTemplate"])]

/-- `build_prompt_template(prompt, tools)`: synthesize the template
string from the legacy prompt's prefix, suffix and format-instructions
values and the tool nodes, then set `prompt["type"]` and
`prompt["node"]`. -/
def build_prompt_template (prompt : JValue) (tools : List JValue) : JValue :=
  let pfx := JValue.getStrAt prompt ["node", "template", "prefix", "value"]
  let sfx := JValue.getStrAt prompt ["node", "template", "suffix", "value"]
  let fmtIns := JValue.getStrAt prompt ["node", "template", "format_instructions", "value"]
  let tool_strings := String.intercalate "\n" (tools.map (fun t =>
      JValue.getStrAt t ["data", "node", "name"] ++ ": " ++
        JValue.getStrAt t ["data", "node", "description"]))
  let tool_names := String.intercalate ", " (tools.map (fun t =>
      JValue.getStrAt t ["data", "node", "name"]))
  let fmtIns2 := substToolNames fmtIns tool_names
  let value := String.intercalate "\n\n" [pfx, tool_strings, fmtIns2, sfx]
  (prompt.set "type" (.str "PromptTemplate")).set "node" (promptTemplateNode value)

/-- The in-place update of the matched node:
`node["data"] = build_prompt_template(prompt=node["data"], tools=tools)`. -/
def rewriteNode (tools : List JValue) (node : JValue) : JValue :=
  node.set "data" (build_prompt_template ((node.lookup "data").getD .null) tools)

/-- The `for ... break` loop of the rewriter: rewrite the first node
matching `isZeroShot` (using the tool list computed over the whole
original collection) and keep everything else. -/
def replaceFirstZeroShot (tools : List JValue) : List JValue → List JValue
  | [] => []
  | node :: rest =>
      if isZeroShot node then rewriteNode tools node :: rest
      else node :: replaceFirstZeroShot tools rest

/-- `replace_zero_shot_prompt_with_prompt_template(nodes)`. -/
def replace_zero_shot_prompt_with_prompt_template (nodes : List JValue) : List JValue :=
  replaceFirstZeroShot (nodes.filter isToolNode) nodes

/-- Hashable scalar parameter values (the Python values `set()` can
hold).  `tool` is an already-instantiated `BaseTool` carrying its `name`;
`objRef` is any other already-instantiated object, identified
opaquely. -/
inductive PAtom where
  | str (s : String)
  | int (n : Int)
  | bool (b : Bool)
  | null
  | tool (name : String)
  | objRef (id : Nat)
deriving DecidableEq

/-- Raw parameter values as received by the instantiation engine:
scalars, ordered sequences, sets (held as a deduplicated list in
first-occurrence order), string-keyed mappings, and the `file_filter`
predicate closure (determined by its extension list). -/
inductive PValue where
  | atom (a : PAtom)
  | list (xs : List PValue)
  | set (xs : List PAtom)
  | dict (fields : List (String × PValue))
  | filterPred (exts : List String)

/-- A params mapping: a Python dict in insertion order (keys unique). -/
abbrev Params := List (String × PValue)

/-- `params[key]` / `params.get(key)` (first matching key). -/
def lookupParam : Params → String → Option PValue
  | [], _ => none
  | (k, v) :: rest, key => if k == key then some v else lookupParam rest key

/-- `key in params`. -/
def containsKey (params : Params) (key : String) : Bool :=
  (lookupParam params key).isSome

/-- `params.pop(key, None)`'s effect on the dict: remove the key. -/
def eraseKey (params : Params) (key : String) : Params :=
  params.filter (fun kv => kv.1 != key)

/-- `params[key] = v`: replace in place at the existing position, else
append (CPython dict semantics). -/
def setParam : Params → String → PValue → Params
  | [], key, v => [(key, v)]
  | (k, w) :: rest, key, v =>
      if k == key then (key, v) :: rest else (k, w) :: setParam rest key v

/-- Update the value stored at an existing key in place. -/
def updateValue : Params → String → (PValue → PValue) → Params
  | [], _, _ => []
  | (k, v) :: rest, key, f =>
      if k == key then (k, f v) :: rest else (k, v) :: updateValue rest key f

/-- Python truthiness of a parameter value. -/
def PValue.truthy : PValue → Bool
  | .atom (.str s) => s != ""
  | .atom (.int n) => n != 0
  | .atom (.bool b) => b
  | .atom .null => false
  | .atom (.tool _) => true
  | .atom (.objRef _) => true
  | .list xs => !xs.isEmpty
  | .set xs => !xs.isEmpty
  | .dict fs => !fs.isEmpty
  | .filterPred _ => true

/-- The atoms of a list of values, when every element is a scalar
(Python `set()` raises `TypeError` on a sequence holding an unhashable
element; such inputs are outside the modelled domain and left unchanged
by `toSet`). -/
def atomsOf : List PValue → Option (List PAtom)
  | [] => some []
  | .atom a :: rest =>
      match atomsOf rest with
      | some as => some (a :: as)
      | none => none
  | _ :: _ => none

/-- Python `set(v)`: deduplicate a sequence of hashable scalars keeping
first occurrences; a string yields its set of one-character strings; a
dict yields its set of keys; `set` of a set is an equal set.  Inputs on
which CPython raises `TypeError` (non-iterables, sequences with
unhashable elements) are returned unchanged. -/
def toSet : PValue → PValue
  | .atom (.str s) => .set ((s.toList.map (fun c => PAtom.str (String.singleton c))).dedup)
  | .list xs =>
      match atomsOf xs with
      | some as => .set as.dedup
      | none => .list xs
  | .set xs => .set xs
  | .dict fs => .set ((fs.map (fun kv => PAtom.str kv.1)).dedup)
  | v => v

/-- `convert_params_to_sets(params)`: replace the values of
`allowed_special` and `disallowed_special`, when present, by the set of
their elements. -/
def convert_params_to_sets (params : Params) : Params :=
  let params :=
    if containsKey params "allowed_special"
    then updateValue params "allowed_special" toSet else params
  if containsKey params "disallowed_special"
  then updateValue params "disallowed_special" toSet else params

/-- The error with which the engine surfaces a `json.loads` failure on a
kwargs parameter (`json.JSONDecodeError` propagating out of
`convert_kwargs`; the spec's `MalformedParameterError`). -/
def malformedParameterMsg : String := "MalformedParameterError"

/-- The characters of the substring `"kwargs"` searched for in parameter
names. -/
def kwargsChars : List Char := "kwargs".toList

/-- One step of `convert_kwargs`: a parameter whose name contains
`"kwargs"` and whose value is a string is decoded with `loads` (the
external `json.loads`, a parameter of the embedding); decode failure is
fatal; everything else passes through. -/
def convertKwargsEntry (loads : String → Option PValue) (kv : String × PValue) :
    Except String (String × PValue) :=
  if hasSub kwargsChars kv.1.toList then
    match kv.2 with
    | .atom (.str s) =>
        match loads s with
        | some v => .ok (kv.1, v)
        | none => .error malformedParameterMsg
    | v => .ok (kv.1, v)
  else .ok kv

/-- `convert_kwargs(params)`: decode every string-valued kwargs
parameter, aborting at the first malformed one (the iteration order of
the dict). -/
def convert_kwargs (loads : String → Option PValue) : Params → Except String Params
  | [] => .ok []
  | kv :: rest =>
      match convertKwargsEntry loads kv with
      | .error e => .error e
      | .ok kv' =>
          match convert_kwargs loads rest with
          | .error e => .error e
          | .ok rest' => .ok (kv' :: rest')

/-- An entry of the override table `CUSTOM_NODES` (content external to
this file): whether the stored value is truthy, and whether it has an
`initialize` attribute. -/
structure Override where
  truthy : Bool
  hasInit : Bool

/-- The override table `CUSTOM_NODES`: type name to entry. -/
abbrev OverrideTable := List (String × Override)

/-- Table lookup covering both `node_type in CUSTOM_NODES` and
`CUSTOM_NODES.get(node_type)`. -/
def lookupOverride : OverrideTable → String → Option Override
  | [], _ => none
  | (k, v) :: rest, key => if k == key then some v else lookupOverride rest key

/-- The outcome of `instantiate_class`'s resolution: which callable is
invoked, with which (normalized) params.  `libraryDispatch` stands for
the call `instantiate_based_on_type(class_object, base_type, node_type,
params)` on the class resolved from the external library. -/
inductive InstResult where
  | factoryInit (node_type : String) (params : Params)
  | overrideConstruct (node_type : String) (params : Params)
  | libraryDispatch (classId : Nat) (base_type node_type : String) (params : Params)

/-- The fatal error for a class-library miss, naming both category and
type. -/
def unknownComponentMsg (base_type node_type : String) : String :=
  "UnknownComponentTypeError: " ++ base_type ++ " " ++ node_type

/-- Modelled from the spec: `import_by_type` (the external class-library
lookup, whose implementation is not under `src/`) resolves a
`(category, type_name)` pair to a concrete class and fails with
`UnknownComponentTypeError` naming both category and type on a miss.
The library's content is the parameter `lib`. -/
def import_by_type (lib : String → String → Option Nat) (base_type node_type : String) :
    Except String Nat :=
  match lib base_type node_type with
  | some classId => .ok classId
  | none => .error (unknownComponentMsg base_type node_type)

/-- `instantiate_class(node_type, base_type, params)`: normalize params,
consult the override table (a truthy entry with an `initialize` attribute
is a factory, a truthy entry without one is constructed, a falsy entry
falls through), else resolve through the external class library and
dispatch on the category. -/
def instantiate_class (tbl : OverrideTable) (lib : String → String → Option Nat)
    (loads : String → Option PValue) (node_type base_type : String) (params : Params) :
    Except String InstResult := do
  let params := convert_params_to_sets params
  let params ← convert_kwargs loads params
  match lookupOverride tbl node_type with
  | some ov =>
      if ov.truthy then
        if ov.hasInit then return .factoryInit node_type params
        else return .overrideConstruct node_type params
      else do
        let classId ← import_by_type lib base_type node_type
        return .libraryDispatch classId base_type node_type params
  | none => do
      let classId ← import_by_type lib base_type node_type
      return .libraryDispatch classId base_type node_type params

/-- The outcome of calling the external embedding constructor
`class_object(**params)`: success, a pydantic `ValidationError`, or any
other exception. -/
inductive EmbedResult where
  | ok (instId : Nat)
  | validationError
  | otherError (msg : String)

/-- The external embedding class: its declared `__fields__` keys and its
constructor behaviour on a given params mapping. -/
structure EmbedCls where
  fieldNames : List String
  construct : Params → EmbedResult

/-- `instantiate_embedding(class_object, params)`: drop `model` and
`headers`, try to construct, and on a `ValidationError` retry once with
only the params naming declared fields; the retry's outcome (success or
failure) is final. -/
def instantiate_embedding (cls : EmbedCls) (params : Params) : EmbedResult :=
  let params := eraseKey (eraseKey params "model") "headers"
  match cls.construct params with
  | .validationError =>
      cls.construct (params.filter (fun kv => cls.fieldNames.contains kv.1))
  | r => r

/-- A loaded document: an opaque payload and its `metadata` field. -/
structure Doc where
  payload : Nat
  metadata : PValue

/-- The external document-loader class: `class_object(**params).load()`
as a function of the params it is constructed with. -/
structure DocLoaderCls where
  loadDocs : Params → List Doc

/-- The message of the fatal error raised when a textual `metadata`
param is not valid JSON (the spec's `InvalidMetadataError`). -/
def invalidMetadataMsg : String := "The metadata you provided is not a valid JSON string."

/-- The predicate the documentloader adapter builds from a
comma-separated `file_filter` string: accept any path containing any of
the stripped extension substrings. -/
def fileFilterPred (exts : List String) (x : String) : Bool :=
  exts.any (fun e => hasSub e.trim.toList x.toList)

/-- The `file_filter` pre-processing step of
`instantiate_documentloader`: pop a string-valued `file_filter` and
re-insert the predicate built from its comma-separated pieces (the key
moves to the end of the dict, as pop-then-assign does in CPython).  A
present non-string `file_filter` makes CPython fail on `.split`. -/
def applyFileFilter (params : Params) : Except String Params :=
  match lookupParam params "file_filter" with
  | some (.atom (.str s)) =>
      .ok (setParam (eraseKey params "file_filter") "file_filter"
            (.filterPred (s.splitOn ",")))
  | some _ => .error "AttributeError: split"
  | none => .ok params

/-- The decode step applied to a truthy `metadata` value: a string is
decoded with `loads` (`json.loads`), failing fatally on malformed JSON;
any non-string value is kept as is. -/
def decodeMetadata (loads : String → Option PValue) : PValue → Except String PValue
  | .atom (.str s) =>
      match loads s with
      | some m => .ok m
      | none => .error invalidMetadataMsg
  | other => .ok other

/-- `instantiate_documentloader(class_object, params)`: rewrite
`file_filter`, pop `metadata`, load the documents, and then — only when
the popped metadata is truthy — decode it from JSON if it is a string
(fatal error on decode failure) and overwrite every document's
`metadata` field with it. -/
def instantiate_documentloader (loads : String → Option PValue) (cls : DocLoaderCls)
    (params : Params) : Except String (List Doc) := do
  let params ← applyFileFilter params
  let mdOpt := lookupParam params "metadata"
  let params := eraseKey params "metadata"
  let docs := cls.loadDocs params
  match mdOpt with
  | some md =>
      if md.truthy then do
        let md2 ← decodeMetadata loads md
        return docs.map (fun d => { d with metadata := md2 })
      else return docs
  | none => return docs

/-- The fatal error for a missing `llm_chain` param (the `KeyError`
raised by `params["llm_chain"]`; the spec's `MissingChainError`). -/
def missingChainMsg : String := "MissingChainError: llm_chain"

/-- Modelled from the spec: the external langchain constructors
`agent_class(allowed_tools=..., llm_chain=...)` and
`AgentExecutor.from_agent_and_tools(agent=..., tools=...)` are not under
`src/`; the executable agent is modelled as the record of what the
builder passes to them — the tool-name sequence and chain given to the
bare agent, and the full tool-instance sequence given to the
executor. -/
structure ExecAgent where
  agentToolNames : List String
  agentChain : PValue
  tools : List PValue

/-- `tool.name` on an element of the allowed-tools sequence; a non-tool
element makes CPython fail with `AttributeError`. -/
def toolName : PValue → Except String String
  | .atom (.tool n) => .ok n
  | _ => .error "AttributeError: name"

/-- `[tool.name for tool in allowed_tools]`. -/
def toolNamesOf : List PValue → Except String (List String)
  | [] => .ok []
  | t :: rest =>
      match toolName t with
      | .error e => .error e
      | .ok n =>
          match toolNamesOf rest with
          | .error e => .error e
          | .ok ns => .ok (n :: ns)

/-- `load_agent_executor(agent_class, params)`: read `allowed_tools`
(defaulting to an empty list), require `llm_chain`, wrap a bare tool
instance into a one-element list, derive the tool names, and assemble
the executable agent.  An `allowed_tools` value that is neither a
list, a set nor a tool instance makes CPython fail while iterating it
or taking `.name`; it is modelled as an error. -/
def load_agent_executor (params : Params) : Except String ExecAgent := do
  let allowed_tools := (lookupParam params "allowed_tools").getD (.list [])
  let llm_chain ←
    match lookupParam params "llm_chain" with
    | some c => pure c
    | none => throw missingChainMsg
  let toolSeq ←
    match allowed_tools with
    | .atom (.tool n) => pure [PValue.atom (.tool n)]
    | .list ts => pure ts
    | .set ts => pure (ts.map PValue.atom)
    | _ => throw "TypeError: allowed_tools is not iterable"
  let tool_names ←
    match toolNamesOf toolSeq with
    | .ok ns => pure ns
    | .error e => throw e
  return { agentToolNames := tool_names, agentChain := llm_chain, tools := toolSeq }

lemma lookupField_setField_self (fs : List (String × JValue)) (k : String) (v : JValue) :
    JValue.lookupField (JValue.setField fs k v) k = some v := by
  induction fs with
  | nil => simp [JValue.setField, JValue.lookupField]
  | cons kv rest ih =>
      obtain ⟨a, w⟩ := kv
      by_cases h : (a == k) = true
      · simp [JValue.setField, h, JValue.lookupField]
      · simp only [JValue.setField, h, Bool.false_eq_true, if_false, JValue.lookupField, ih]

lemma lookupField_setField_ne (fs : List (String × JValue)) (k k' : String) (v : JValue)
    (h : (k == k') = false) :
    JValue.lookupField (JValue.setField fs k v) k' = JValue.lookupField fs k' := by
  induction fs with
  | nil => simp [JValue.setField, JValue.lookupField, h]
  | cons kv rest ih =>
      obtain ⟨a, w⟩ := kv
      by_cases ha : (a == k) = true
      · have : a = k := by exact eq_of_beq ha
        subst this
        simp [JValue.setField, ha, JValue.lookupField, h]
      · simp only [JValue.setField, ha, Bool.false_eq_true, if_false, JValue.lookupField, ih]

lemma lookup_set_self (fs : List (String × JValue)) (k : String) (v : JValue) :
    (JValue.set (.obj fs) k v).lookup k = some v := by
  simp [JValue.set, JValue.lookup, lookupField_setField_self]

lemma lookup_set_ne (fs : List (String × JValue)) (k k' : String) (v : JValue)
    (h : (k == k') = false) :
    (JValue.set (.obj fs) k v).lookup k' = JValue.lookupField fs k' := by
  simp [JValue.set, JValue.lookup, lookupField_setField_ne _ _ _ _ h]

/-- Structure forced on a node by the rewriter's scan condition. -/
lemma isZeroShot_shape (m : JValue) (hm : isZeroShot m = true) :
    ∃ fs ds, m = JValue.obj fs ∧
      JValue.lookupField fs "data" = some (JValue.obj ds) ∧
      JValue.lookupField ds "type" = some (.str "ZeroShotPrompt") := by
  cases m with
  | obj fs =>
      rcases hdata : JValue.lookupField fs "data" with _ | d
      · simp [isZeroShot, JValue.isStrAt, JValue.getAt, JValue.lookup, hdata] at hm
      · cases d with
        | obj ds =>
            rcases hty : JValue.lookupField ds "type" with _ | t
            · simp [isZeroShot, JValue.isStrAt, JValue.getAt, JValue.lookup, hdata, hty] at hm
            · cases t with
              | str s =>
                  have hs : s = "ZeroShotPrompt" := by
                    simp [isZeroShot, JValue.isStrAt, JValue.getAt, JValue.lookup,
                      hdata, hty] at hm
                    exact hm
                  exact ⟨fs, ds, rfl, hdata, by rw [hty, hs]⟩
              | _ =>
                  simp [isZeroShot, JValue.isStrAt, JValue.getAt, JValue.lookup,
                    hdata, hty] at hm
        | _ => simp [isZeroShot, JValue.isStrAt, JValue.getAt, JValue.lookup, hdata] at hm
  | _ => simp [isZeroShot, JValue.isStrAt, JValue.getAt, JValue.lookup] at hm

/-- A rewritten node no longer matches the scan condition: its
`data.type` has become `"PromptTemplate"`. -/
lemma isZeroShot_rewriteNode (tools : List JValue) (m : JValue) (hm : isZeroShot m = true) :
    isZeroShot (rewriteNode tools m) = false := by
  obtain ⟨fs, ds, rfl, hd, hty⟩ := isZeroShot_shape m hm
  have hdval : (JValue.lookup (.obj fs) "data").getD .null = JValue.obj ds := by
    simp [JValue.lookup, hd]
  have hbuild :
      (build_prompt_template ((JValue.lookup (.obj fs) "data").getD .null) tools).lookup "type"
        = some (.str "PromptTemplate") := by
    rw [hdval]
    simp only [build_prompt_template]
    rw [show JValue.set (JValue.obj ds) "type" (.str "PromptTemplate")
          = JValue.obj (JValue.setField ds "type" (.str "PromptTemplate")) from rfl]
    rw [lookup_set_ne _ _ _ _ (by decide)]
    exact lookupField_setField_self ds "type" (.str "PromptTemplate")
  have hGA : JValue.getAt (rewriteNode tools (JValue.obj fs)) ["data", "type"]
      = some (.str "PromptTemplate") := by
    simp only [JValue.getAt, rewriteNode]
    rw [lookup_set_self]
    show (build_prompt_template (((JValue.obj fs).lookup "data").getD .null) tools).getAt
        ["type"] = some (.str "PromptTemplate")
    simp only [JValue.getAt]
    rw [hbuild]
  simp only [isZeroShot, JValue.isStrAt]
  rw [hGA]
  decide

lemma replaceFirstZeroShot_of_none (tools : List JValue) (l : List JValue)
    (h : ∀ n ∈ l, isZeroShot n = false) :
    replaceFirstZeroShot tools l = l := by
  induction l with
  | nil => rfl
  | cons n rest ih =>
      have hn : isZeroShot n = false := h n (by simp)
      simp only [replaceFirstZeroShot, hn, Bool.false_eq_true, if_false]
      rw [ih (fun x hx => h x (by simp [hx]))]

lemma replaceFirstZeroShot_append (tools pre post : List JValue) (m : JValue)
    (h2 : ∀ n ∈ pre, isZeroShot n = false) (h3 : isZeroShot m = true) :
    replaceFirstZeroShot tools (pre ++ m :: post) = pre ++ rewriteNode tools m :: post := by
  induction pre with
  | nil => simp [replaceFirstZeroShot, h3]
  | cons n rest ih =>
      have hn : isZeroShot n = false := h2 n (by simp)
      simp only [List.cons_append, replaceFirstZeroShot, hn, Bool.false_eq_true, if_false,
        List.append_eq]
      rw [ih (fun x hx => h2 x (by simp [hx]))]

lemma replaceFirstZeroShot_cases (tools : List JValue) (l : List JValue) :
    ((∀ n ∈ l, isZeroShot n = false) ∧ replaceFirstZeroShot tools l = l) ∨
    (∃ pre m post, l = pre ++ m :: post ∧ (∀ n ∈ pre, isZeroShot n = false) ∧
      isZeroShot m = true ∧
      replaceFirstZeroShot tools l = pre ++ rewriteNode tools m :: post) := by
  induction l with
  | nil => exact Or.inl ⟨by simp, rfl⟩
  | cons n rest ih =>
      by_cases hn : isZeroShot n = true
      · refine Or.inr ⟨[], n, rest, by simp, by simp, hn, ?_⟩
        simp [replaceFirstZeroShot, hn]
      · have hn' : isZeroShot n = false := by
          cases h : isZeroShot n
          · rfl
          · exact absurd h hn
        rcases ih with ⟨hall, heq⟩ | ⟨pre, m, post, hdec, hpre, hm, heq⟩
        · refine Or.inl ⟨?_, ?_⟩
          · intro x hx
            rcases List.mem_cons.mp hx with rfl | hx'
            · exact hn'
            · exact hall x hx'
          · simp only [replaceFirstZeroShot, hn', Bool.false_eq_true, if_false]
            rw [heq]
        · refine Or.inr ⟨n :: pre, m, post, by simp [hdec], ?_, hm, ?_⟩
          · intro x hx
            rcases List.mem_cons.mp hx with rfl | hx'
            · exact hn'
            · exact hpre x hx'
          · simp only [replaceFirstZeroShot, hn', Bool.false_eq_true, if_false, List.cons_append]
            rw [heq]

/-- C2. One invocation of
`replace_zero_shot_prompt_with_prompt_template` rewrites at most one
node: either no node's `data.type` is `"ZeroShotPrompt"` and the
collection is returned unchanged, or the collection splits around the
first such node, that node alone is rewritten, and every node before and
after it is passed through unchanged. -/
theorem replace_zero_shot_frame (nodes : List JValue) :
    ((∀ n ∈ nodes, isZeroShot n = false) ∧
      replace_zero_shot_prompt_with_prompt_template nodes = nodes) ∨
    (∃ pre m post, nodes = pre ++ m :: post ∧ (∀ n ∈ pre, isZeroShot n = false) ∧
      isZeroShot m = true ∧
      replace_zero_shot_prompt_with_prompt_template nodes =
        pre ++ rewriteNode (nodes.filter isToolNode) m :: post) :=
  replaceFirstZeroShot_cases (nodes.filter isToolNode) nodes

/-- A minimal legacy ZeroShotPrompt node used in concrete evaluations
(its `base_classes` does not contain `"Tool"`). -/
def zsDemoNode (nm : String) : JValue :=
  .obj [("type", .str "genericNode"),
    ("data", .obj [
      ("type", .str "ZeroShotPrompt"),
      ("node", .obj [
        ("template", .obj [
          ("prefix", .obj [("value", .str "PRE")]),
          ("suffix", .obj [("value", .str "SUF")]),
          ("format_instructions", .obj [("value", .str "FI")])]),
        ("name", .str nm), ("description", .str "d"),
        ("base_classes", .list [.str "BasePromptTemplate"])])])]

/-- A collection holding two legacy ZeroShotPrompt nodes. -/
def twoLegacy : List JValue := [zsDemoNode "p1", zsDemoNode "p2"]

/-- C3, counterexample.  On a collection with two legacy
ZeroShotPrompt nodes the rewriter is not idempotent: the first
application rewrites only the first legacy node, and the second
application rewrites the second one, so applying it twice differs from
applying it once (the second node's `data.type` flips from
`"ZeroShotPrompt"` to `"PromptTemplate"`). -/
theorem replace_zero_shot_not_idempotent :
    replace_zero_shot_prompt_with_prompt_template
        (replace_zero_shot_prompt_with_prompt_template twoLegacy) ≠
      replace_zero_shot_prompt_with_prompt_template twoLegacy := by
  intro h
  have h2 : ("PromptTemplate" : String) = "ZeroShotPrompt" := by
    calc ("PromptTemplate" : String)
        = JValue.getStrAt ((replace_zero_shot_prompt_with_prompt_template
              (replace_zero_shot_prompt_with_prompt_template twoLegacy)).getD 1 .null)
            ["data", "type"] := by rfl
      _ = JValue.getStrAt
            ((replace_zero_shot_prompt_with_prompt_template twoLegacy).getD 1 .null)
            ["data", "type"] := by rw [h]
      _ = "ZeroShotPrompt" := by rfl
  exact absurd h2 (by decide)

/-- C3, amended.  The rewriter is idempotent on every node collection
containing at most one legacy ZeroShotPrompt node: applying it to its
own output is then a no-op (on collections with two or more legacy
nodes it is not, see the counterexample). -/
theorem replace_zero_shot_idempotent_single (nodes : List JValue)
    (h : nodes.countP isZeroShot ≤ 1) :
    replace_zero_shot_prompt_with_prompt_template
        (replace_zero_shot_prompt_with_prompt_template nodes) =
      replace_zero_shot_prompt_with_prompt_template nodes := by
  rcases replaceFirstZeroShot_cases (nodes.filter isToolNode) nodes with
    ⟨hall, heq⟩ | ⟨pre, m, post, hdec, hpre, hm, heq⟩
  · have h1 : replace_zero_shot_prompt_with_prompt_template nodes = nodes := heq
    rw [h1]
    exact h1
  · have h1 : replace_zero_shot_prompt_with_prompt_template nodes
        = pre ++ rewriteNode (nodes.filter isToolNode) m :: post := heq
    rw [h1]
    have hcount : nodes.countP isZeroShot
        = pre.countP isZeroShot + 1 + post.countP isZeroShot := by
      rw [hdec]
      simp [List.countP_append, List.countP_cons, hm]
      omega
    have hpost0 : post.countP isZeroShot = 0 := by omega
    have hpost : ∀ n ∈ post, isZeroShot n = false := by
      intro n hn
      exact (Bool.not_eq_true _) ▸ (List.countP_eq_zero.mp hpost0 n hn)
    show replaceFirstZeroShot _ (pre ++ rewriteNode (nodes.filter isToolNode) m :: post)
        = pre ++ rewriteNode (nodes.filter isToolNode) m :: post
    apply replaceFirstZeroShot_of_none
    intro n hn
    rcases List.mem_append.mp hn with hn' | hn'
    · exact hpre n hn'
    · rcases List.mem_cons.mp hn' with rfl | hn''
      · exact isZeroShot_rewriteNode _ _ hm
      · exact hpost n hn''

/-- C3, witness: the amended idempotence applied to a concrete
one-legacy-node collection. -/
theorem replace_zero_shot_idempotent_single_witness :
    List.countP isZeroShot [zsDemoNode "p1"] ≤ 1 ∧
    replace_zero_shot_prompt_with_prompt_template
        (replace_zero_shot_prompt_with_prompt_template [zsDemoNode "p1"]) =
      replace_zero_shot_prompt_with_prompt_template [zsDemoNode "p1"] :=
  ⟨by decide, replace_zero_shot_idempotent_single [zsDemoNode "p1"] (by decide)⟩

lemma getAt_cons (j : JValue) (k : String) (ks : List String) :
    JValue.getAt j (k :: ks) =
      match j.lookup k with
      | some v => v.getAt ks
      | none => none := rfl

lemma getStrAt_set_node_pt (q : List (String × JValue)) (V : String) :
    JValue.getStrAt (JValue.set (.obj q) "node" (promptTemplateNode V))
      ["node", "template", "template", "value"] = V := by
  unfold JValue.getStrAt
  rw [getAt_cons, lookup_set_self]
  rfl

/-- The synthesized template string stored by `build_prompt_template`
into the rewritten node: the blank-line-separated concatenation of the
prefix, the newline-joined `name: description` tool lines, the
format-instructions string with the comma-joined tool names substituted
in, and the suffix. -/
lemma build_template_value (ds : List (String × JValue)) (tools : List JValue) :
    JValue.getStrAt (build_prompt_template (JValue.obj ds) tools)
        ["node", "template", "template", "value"]
      = String.intercalate "\n\n"
        [ JValue.getStrAt (JValue.obj ds) ["node", "template", "prefix", "value"],
          String.intercalate "\n" (tools.map (fun t =>
            JValue.getStrAt t ["data", "node", "name"] ++ ": " ++
              JValue.getStrAt t ["data", "node", "description"])),
          substToolNames
            (JValue.getStrAt (JValue.obj ds) ["node", "template", "format_instructions", "value"])
            (String.intercalate ", " (tools.map (fun t =>
              JValue.getStrAt t ["data", "node", "name"]))),
          JValue.getStrAt (JValue.obj ds) ["node", "template", "suffix", "value"] ] :=
  getStrAt_set_node_pt (JValue.setField ds "type" (.str "PromptTemplate")) _

/-- A legacy ZeroShotPrompt node that is itself tool-capable: its
`base_classes` contains `"Tool"` and its top-level type is not the
chat-output type. -/
def zsSelfToolNode : JValue :=
  .obj [("type", .str "genericNode"),
    ("data", .obj [
      ("type", .str "ZeroShotPrompt"),
      ("node", .obj [
        ("template", .obj [
          ("prefix", .obj [("value", .str "PRE")]),
          ("suffix", .obj [("value", .str "SUF")]),
          ("format_instructions", .obj [("value", .str "FI")])]),
        ("name", .str "selftool"), ("description", .str "selfdesc"),
        ("base_classes", .list [.str "Tool"])])])]

/-- C4, counterexample.  The tool list is computed over the whole
collection, not over "the remaining nodes (the matched node excluded)":
for a one-node collection whose only node is a tool-capable legacy
prompt, the matched node itself is in the tool list, and the synthesized
template contains its own `name: description` line — whereas with the
matched node excluded the tool list would be empty and the template
would be `"PRE\n\n\n\nFI\n\nSUF"`. -/
theorem build_prompt_tools_cex :
    isZeroShot zsSelfToolNode = true ∧
    isToolNode zsSelfToolNode = true ∧
    [zsSelfToolNode].filter isToolNode = [zsSelfToolNode] ∧
    JValue.getStrAt
        ((replace_zero_shot_prompt_with_prompt_template [zsSelfToolNode]).getD 0 .null)
        ["data", "node", "template", "template", "value"]
      = "PRE\n\nselftool: selfdesc\n\nFI\n\nSUF" ∧
    String.intercalate "\n\n"
        ["PRE",
         String.intercalate "\n" (([] : List JValue).map (fun t =>
           JValue.getStrAt t ["data", "node", "name"] ++ ": " ++
             JValue.getStrAt t ["data", "node", "description"])),
         substToolNames "FI" (String.intercalate ", " (([] : List JValue).map (fun t =>
           JValue.getStrAt t ["data", "node", "name"]))),
         "SUF"] = "PRE\n\n\n\nFI\n\nSUF" ∧
    ("PRE\n\nselftool: selfdesc\n\nFI\n\nSUF" : String) ≠ "PRE\n\n\n\nFI\n\nSUF" :=
  ⟨rfl, rfl, rfl, rfl, rfl, by decide⟩

/-- C4, amended.  When the rewriter matches a legacy ZeroShotPrompt
node, the tool-capable nodes it uses are exactly the nodes of the whole
collection (the matched node not excluded) that are not the designated
chat-output node and whose base-capability set contains `"Tool"`, in
original order; and the synthesized template string is the
blank-line-separated concatenation of the prefix, the newline-joined
`name: description` lines, the format-instructions string with the
comma-joined tool names substituted in, and the suffix. -/
theorem replace_zero_shot_tools_template (nodes pre post : List JValue) (m : JValue)
    (h1 : nodes = pre ++ m :: post)
    (h2 : ∀ n ∈ pre, isZeroShot n = false)
    (h3 : isZeroShot m = true) :
    replace_zero_shot_prompt_with_prompt_template nodes =
      pre ++ rewriteNode (nodes.filter isToolNode) m :: post ∧
    JValue.getStrAt
        (build_prompt_template ((m.lookup "data").getD .null) (nodes.filter isToolNode))
        ["node", "template", "template", "value"]
      = String.intercalate "\n\n"
        [ JValue.getStrAt ((m.lookup "data").getD .null) ["node", "template", "prefix", "value"],
          String.intercalate "\n" ((nodes.filter isToolNode).map (fun t =>
            JValue.getStrAt t ["data", "node", "name"] ++ ": " ++
              JValue.getStrAt t ["data", "node", "description"])),
          substToolNames
            (JValue.getStrAt ((m.lookup "data").getD .null)
              ["node", "template", "format_instructions", "value"])
            (String.intercalate ", " ((nodes.filter isToolNode).map (fun t =>
              JValue.getStrAt t ["data", "node", "name"]))),
          JValue.getStrAt ((m.lookup "data").getD .null) ["node", "template", "suffix", "value"] ]
    := by
  constructor
  · subst h1
    exact replaceFirstZeroShot_append _ _ _ _ h2 h3
  · obtain ⟨fs, ds, hmfs, hd, hty⟩ := isZeroShot_shape m h3
    have hdval : (m.lookup "data").getD .null = JValue.obj ds := by
      rw [hmfs]
      simp [JValue.lookup, hd]
    rw [hdval]
    exact build_template_value ds _

/-- A plain tool node with capability `Tool`. -/
def toolDemoNode : JValue :=
  .obj [("type", .str "toolNode"),
    ("data", .obj [
      ("type", .str "SomeTool"),
      ("node", .obj [
        ("template", .obj []),
        ("name", .str "search"), ("description", .str "find things"),
        ("base_classes", .list [.str "Tool"])])])]

/-- A chat-output node (excluded from the tool list by its top-level
type even though its capability set contains `Tool`). -/
def chatDemoNode : JValue :=
  .obj [("type", .str "chatOutputNode"),
    ("data", .obj [
      ("type", .str "ChatOutput"),
      ("node", .obj [
        ("template", .obj []),
        ("name", .str "chat"), ("description", .str "out"),
        ("base_classes", .list [.str "Tool"])])])]

/-- The spec's three-node example: a tool node, a legacy prompt node, a
chat-output node. -/
def demoThree : List JValue := [toolDemoNode, zsDemoNode "p1", chatDemoNode]

/-- C4, witness: the amended theorem applied to the concrete three-node
collection. -/
theorem replace_zero_shot_tools_template_witness :
    replace_zero_shot_prompt_with_prompt_template demoThree =
      [toolDemoNode] ++ rewriteNode (demoThree.filter isToolNode) (zsDemoNode "p1")
        :: [chatDemoNode] ∧
    JValue.getStrAt
        (build_prompt_template (((zsDemoNode "p1").lookup "data").getD .null)
          (demoThree.filter isToolNode))
        ["node", "template", "template", "value"]
      = String.intercalate "\n\n"
        [ JValue.getStrAt (((zsDemoNode "p1").lookup "data").getD .null)
            ["node", "template", "prefix", "value"],
          String.intercalate "\n" ((demoThree.filter isToolNode).map (fun t =>
            JValue.getStrAt t ["data", "node", "name"] ++ ": " ++
              JValue.getStrAt t ["data", "node", "description"])),
          substToolNames
            (JValue.getStrAt (((zsDemoNode "p1").lookup "data").getD .null)
              ["node", "template", "format_instructions", "value"])
            (String.intercalate ", " ((demoThree.filter isToolNode).map (fun t =>
              JValue.getStrAt t ["data", "node", "name"]))),
          JValue.getStrAt (((zsDemoNode "p1").lookup "data").getD .null)
            ["node", "template", "suffix", "value"] ] :=
  replace_zero_shot_tools_template demoThree [toolDemoNode] [chatDemoNode] (zsDemoNode "p1")
    rfl (by decide) rfl

lemma atomsOf_map_atom (as : List PAtom) : atomsOf (as.map PValue.atom) = some as := by
  induction as with
  | nil => rfl
  | cons a rest ih => simp [atomsOf, ih]

lemma lookupParam_updateValue_self (params : Params) (key : String) (f : PValue → PValue)
    (v : PValue) (h : lookupParam params key = some v) :
    lookupParam (updateValue params key f) key = some (f v) := by
  induction params with
  | nil => simp [lookupParam] at h
  | cons kv rest ih =>
      obtain ⟨a, w⟩ := kv
      by_cases ha : (a == key) = true
      · simp only [lookupParam, ha, if_true] at h
        cases h
        simp [updateValue, ha, lookupParam]
      · simp only [lookupParam, ha, Bool.false_eq_true, if_false] at h
        simp only [updateValue, ha, Bool.false_eq_true, if_false, lookupParam]
        exact ih h

lemma lookupParam_updateValue_ne (params : Params) (key key' : String) (f : PValue → PValue)
    (h : (key' == key) = false) :
    lookupParam (updateValue params key f) key' = lookupParam params key' := by
  induction params with
  | nil => rfl
  | cons kv rest ih =>
      obtain ⟨a, w⟩ := kv
      by_cases ha : (a == key) = true
      · have haeq : a = key := eq_of_beq ha
        subst haeq
        have : (a == key') = false := by
          cases hb : (a == key') with
          | true => exact absurd (eq_of_beq hb).symm (by
              intro hk
              rw [hk] at h
              simp at h)
          | false => rfl
        simp [updateValue, ha, lookupParam, this]
      · simp only [updateValue, ha, Bool.false_eq_true, if_false, lookupParam]
        by_cases hb : (a == key') = true
        · simp [hb]
        · simp only [hb, Bool.false_eq_true, if_false]
          exact ih

lemma lookup_convert_sets_allowed (params : Params) (v : PValue)
    (h : lookupParam params "allowed_special" = some v) :
    lookupParam (convert_params_to_sets params) "allowed_special" = some (toSet v) := by
  have hc : containsKey params "allowed_special" = true := by simp [containsKey, h]
  unfold convert_params_to_sets
  simp only [hc, if_true]
  by_cases hd : containsKey (updateValue params "allowed_special" toSet) "disallowed_special"
  · simp only [hd, if_true]
    rw [lookupParam_updateValue_ne _ _ _ _ (by decide)]
    exact lookupParam_updateValue_self _ _ _ _ h
  · simp only [hd, Bool.false_eq_true, if_false]
    exact lookupParam_updateValue_self _ _ _ _ h

lemma lookup_convert_sets_disallowed (params : Params) (v : PValue)
    (h : lookupParam params "disallowed_special" = some v) :
    lookupParam (convert_params_to_sets params) "disallowed_special" = some (toSet v) := by
  unfold convert_params_to_sets
  by_cases hc : containsKey params "allowed_special"
  · simp only [hc, if_true]
    have h1 : lookupParam (updateValue params "allowed_special" toSet) "disallowed_special"
        = some v := by
      rw [lookupParam_updateValue_ne _ _ _ _ (by decide)]
      exact h
    have hd : containsKey (updateValue params "allowed_special" toSet) "disallowed_special"
        = true := by simp [containsKey, h1]
    simp only [hd, if_true]
    exact lookupParam_updateValue_self _ _ _ _ h1
  · simp only [Bool.not_eq_true] at hc
    simp only [hc, Bool.false_eq_true, if_false]
    have hd : containsKey params "disallowed_special" = true := by simp [containsKey, h]
    simp only [hd, if_true]
    exact lookupParam_updateValue_self _ _ _ _ h

/-- C5.  `convert_params_to_sets` replaces a sequence-valued
`allowed_special` or `disallowed_special` param by the set of its
elements — same membership, no duplicates — and leaves params lacking
both keys entirely unchanged.  (The hypotheses present the sequence's
elements as scalars, the domain on which Python's `set()` is
defined.) -/
theorem convert_params_to_sets_spec (params : Params) :
    (∀ as : List PAtom,
        lookupParam params "allowed_special" = some (.list (as.map PValue.atom)) →
        lookupParam (convert_params_to_sets params) "allowed_special"
            = some (.set as.dedup) ∧
          as.dedup.Nodup ∧ (∀ a : PAtom, a ∈ as.dedup ↔ a ∈ as)) ∧
    (∀ as : List PAtom,
        lookupParam params "disallowed_special" = some (.list (as.map PValue.atom)) →
        lookupParam (convert_params_to_sets params) "disallowed_special"
            = some (.set as.dedup) ∧
          as.dedup.Nodup ∧ (∀ a : PAtom, a ∈ as.dedup ↔ a ∈ as)) ∧
    (containsKey params "allowed_special" = false →
      containsKey params "disallowed_special" = false →
      convert_params_to_sets params = params) := by
  refine ⟨?_, ?_, ?_⟩
  · intro as h
    refine ⟨?_, List.nodup_dedup as, fun a => List.mem_dedup⟩
    rw [lookup_convert_sets_allowed params _ h]
    simp [toSet, atomsOf_map_atom]
  · intro as h
    refine ⟨?_, List.nodup_dedup as, fun a => List.mem_dedup⟩
    rw [lookup_convert_sets_disallowed params _ h]
    simp [toSet, atomsOf_map_atom]
  · intro h1 h2
    unfold convert_params_to_sets
    simp only [h1, h2, Bool.false_eq_true, if_false]

/-- A concrete params mapping with a duplicate-carrying
`allowed_special` sequence. -/
def demoSpecialParams : Params :=
  [("allowed_special", .list [.atom (.str "a"), .atom (.str "a"), .atom (.str "b")])]

/-- C5, witness: the normalizer applied to the concrete params. -/
theorem convert_params_to_sets_spec_witness :
    lookupParam (convert_params_to_sets demoSpecialParams) "allowed_special"
        = some (.set ([PAtom.str "a", PAtom.str "a", PAtom.str "b"].dedup)) ∧
      ([PAtom.str "a", PAtom.str "a", PAtom.str "b"].dedup).Nodup ∧
      (∀ a : PAtom, a ∈ [PAtom.str "a", PAtom.str "a", PAtom.str "b"].dedup ↔
        a ∈ [PAtom.str "a", PAtom.str "a", PAtom.str "b"]) :=
  (convert_params_to_sets_spec demoSpecialParams).1
    [PAtom.str "a", PAtom.str "a", PAtom.str "b"] rfl

/-- The per-parameter contract of `convert_kwargs`: the key is kept; for
a key containing `"kwargs"` a string value must decode to the output
value and any other value passes through; for other keys the value
passes through. -/
def kwargsEntryRel (loads : String → Option PValue) (kv kv' : String × PValue) : Prop :=
  kv'.1 = kv.1 ∧
  (if hasSub kwargsChars kv.1.toList then
     match kv.2 with
     | .atom (.str s) => loads s = some kv'.2
     | v => kv'.2 = v
   else kv'.2 = kv.2)

lemma convertKwargsEntry_ok (loads : String → Option PValue) (kv kv' : String × PValue)
    (h : convertKwargsEntry loads kv = .ok kv') : kwargsEntryRel loads kv kv' := by
  obtain ⟨k, v⟩ := kv
  unfold convertKwargsEntry at h
  unfold kwargsEntryRel
  by_cases hk : hasSub kwargsChars k.toList
  · simp only [hk, if_true] at h ⊢
    split at h
    · rename_i s
      cases hl : loads s with
      | none => rw [hl] at h; cases h
      | some w =>
          rw [hl] at h
          cases h
          exact ⟨rfl, rfl⟩
    · rename_i v2 hno
      cases h
      exact ⟨rfl, rfl⟩
  · simp only [hk, Bool.false_eq_true, if_false] at h ⊢
    cases h
    exact ⟨rfl, rfl⟩

lemma convertKwargsEntry_error (loads : String → Option PValue) (kv : String × PValue)
    (e : String) (h : convertKwargsEntry loads kv = .error e) :
    e = malformedParameterMsg ∧ ∃ s, kv.2 = PValue.atom (PAtom.str s) ∧
      hasSub kwargsChars kv.1.toList = true ∧ loads s = none := by
  obtain ⟨k, v⟩ := kv
  unfold convertKwargsEntry at h
  by_cases hk : hasSub kwargsChars k.toList
  · simp only [hk, if_true] at h
    split at h
    · rename_i s
      cases hl : loads s with
      | none =>
          rw [hl] at h
          cases h
          exact ⟨rfl, s, rfl, hk, hl⟩
      | some w => rw [hl] at h; cases h
    · cases h
  · simp only [hk, Bool.false_eq_true, if_false] at h
    cases h

lemma convertKwargsEntry_error_of (loads : String → Option PValue) (k s : String)
    (hk : hasSub kwargsChars k.toList = true) (hl : loads s = none) :
    convertKwargsEntry loads (k, PValue.atom (PAtom.str s)) = .error malformedParameterMsg := by
  unfold convertKwargsEntry
  simp only [hk, if_true, hl]

/-- C6.  `convert_kwargs` processes exactly the parameters whose name
contains the substring `"kwargs"`: on success, every such string-valued
parameter has been replaced by its decoded value and everything else
passes through unchanged (keys and order preserved); the call fails
if and only if some kwargs-named parameter holds a string that does not
decode, and the failure is always `MalformedParameterError`. -/
theorem convert_kwargs_spec (loads : String → Option PValue) (params : Params) :
    (∀ params', convert_kwargs loads params = .ok params' →
        List.Forall₂ (kwargsEntryRel loads) params params') ∧
    ((∃ e, convert_kwargs loads params = .error e) ↔
      (∃ k s, (k, PValue.atom (PAtom.str s)) ∈ params ∧
        hasSub kwargsChars k.toList = true ∧ loads s = none)) ∧
    (∀ e, convert_kwargs loads params = .error e → e = malformedParameterMsg) := by
  induction params with
  | nil =>
      refine ⟨?_, ?_, ?_⟩
      · intro params' h
        cases h
        exact List.Forall₂.nil
      · constructor
        · rintro ⟨e, he⟩
          cases he
        · rintro ⟨k, s, hmem, _, _⟩
          simp at hmem
      · intro e he
        cases he
  | cons kv rest ih =>
      refine ⟨?_, ?_, ?_⟩
      · intro params' h
        cases he : convertKwargsEntry loads kv with
        | error e =>
            simp only [convert_kwargs, he] at h
            exact Except.noConfusion h
        | ok kv' =>
            cases hr : convert_kwargs loads rest with
            | error e =>
                simp only [convert_kwargs, he, hr] at h
                exact Except.noConfusion h
            | ok rest' =>
                simp only [convert_kwargs, he, hr] at h
                cases h
                exact List.Forall₂.cons (convertKwargsEntry_ok _ _ _ he) (ih.1 _ hr)
      · constructor
        · rintro ⟨e, he⟩
          cases hent : convertKwargsEntry loads kv with
          | error e' =>
              obtain ⟨_, s, hv, hk, hl⟩ := convertKwargsEntry_error _ _ _ hent
              refine ⟨kv.1, s, ?_, hk, hl⟩
              have : kv = (kv.1, PValue.atom (PAtom.str s)) := by
                obtain ⟨a, b⟩ := kv
                simpa using hv
              rw [← this]
              exact List.mem_cons_self _ _
          | ok kv' =>
              cases hr : convert_kwargs loads rest with
              | error e' =>
                  obtain ⟨k, s, hmem, hk, hl⟩ := ih.2.1.mp ⟨e', hr⟩
                  exact ⟨k, s, List.mem_cons_of_mem _ hmem, hk, hl⟩
              | ok rest' =>
                  simp only [convert_kwargs, hent, hr] at he
                  exact Except.noConfusion he
        · rintro ⟨k, s, hmem, hk, hl⟩
          rcases List.mem_cons.mp hmem with heq | hmem'
          · refine ⟨malformedParameterMsg, ?_⟩
            have hent : convertKwargsEntry loads kv = .error malformedParameterMsg := by
              rw [← heq]
              exact convertKwargsEntry_error_of loads k s hk hl
            simp only [convert_kwargs, hent]
          · obtain ⟨e, he⟩ := ih.2.1.mpr ⟨k, s, hmem', hk, hl⟩
            cases hent : convertKwargsEntry loads kv with
            | error e' => exact ⟨e', by simp only [convert_kwargs, hent]⟩
            | ok kv' => exact ⟨e, by simp only [convert_kwargs, hent, he]⟩
      · intro e he
        cases hent : convertKwargsEntry loads kv with
        | error e' =>
            simp only [convert_kwargs, hent] at he
            cases he
            exact (convertKwargsEntry_error _ _ _ hent).1
        | ok kv' =>
            cases hr : convert_kwargs loads rest with
            | error e' =>
                simp only [convert_kwargs, hent, hr] at he
                cases he
                exact ih.2.2 _ hr
            | ok rest' =>
                simp only [convert_kwargs, hent, hr] at he
                exact Except.noConfusion he

/-- A small concrete JSON decoder standing in for `json.loads` in
witnesses and counterexamples. -/
def demoLoads : String → Option PValue
  | "[]" => some (.list [])
  | "m" => some (.dict [("source", .atom (.str "x"))])
  | _ => none

/-- A concrete params mapping with one kwargs-named string parameter and
one unrelated parameter. -/
def demoKwargsParams : Params :=
  [("model_kwargs", .atom (.str "[]")), ("temperature", .atom (.int 1))]

/-- C6, witness: `convert_kwargs` on the concrete params decodes the
kwargs-named string and leaves the other parameter unchanged. -/
theorem convert_kwargs_spec_witness :
    List.Forall₂ (kwargsEntryRel demoLoads) demoKwargsParams
      [("model_kwargs", PValue.list []), ("temperature", PValue.atom (PAtom.int 1))] :=
  (convert_kwargs_spec demoLoads demoKwargsParams).1 _ rfl

lemma lookupParam_eraseKey_self (params : Params) (key : String) :
    lookupParam (eraseKey params key) key = none := by
  induction params with
  | nil => rfl
  | cons kv rest ih =>
      obtain ⟨a, w⟩ := kv
      by_cases ha : (a == key) = true
      · have ha' : (a != key) = false := by simp [bne, ha]
        simp only [eraseKey] at ih
        simpa [eraseKey, List.filter_cons, ha'] using ih
      · have ha' : (a != key) = true := by simp [bne, ha]
        simp only [eraseKey] at ih
        simp [eraseKey, List.filter_cons, ha', lookupParam, ha, ih]

lemma lookupParam_filter_none (p : String × PValue → Bool) (params : Params) (key : String)
    (h : lookupParam params key = none) :
    lookupParam (params.filter p) key = none := by
  induction params with
  | nil => rfl
  | cons kv rest ih =>
      obtain ⟨a, w⟩ := kv
      by_cases ha : (a == key) = true
      · simp [lookupParam, ha] at h
      · simp only [lookupParam, ha, Bool.false_eq_true, if_false] at h
        by_cases hp : p (a, w) = true
        · simp [List.filter_cons, hp, lookupParam, ha, ih h]
        · simp [List.filter_cons, hp, ih h]

lemma containsKey_eraseKey_self (params : Params) (key : String) :
    containsKey (eraseKey params key) key = false := by
  simp [containsKey, lookupParam_eraseKey_self]

/-- C7.  `instantiate_embedding` always drops `model` and `headers`
before construction (the params reaching the constructor contain
neither); a successful or non-validation outcome of that first
construction is returned as is; a `ValidationError` triggers exactly one
retry whose params are the subset naming declared fields of the class,
and that retry's outcome — success or failure — is the final result. -/
theorem instantiate_embedding_spec (cls : EmbedCls) (params : Params) :
    containsKey (eraseKey (eraseKey params "model") "headers") "model" = false ∧
    containsKey (eraseKey (eraseKey params "model") "headers") "headers" = false ∧
    (∀ i, cls.construct (eraseKey (eraseKey params "model") "headers") = .ok i →
        instantiate_embedding cls params = .ok i) ∧
    (cls.construct (eraseKey (eraseKey params "model") "headers") = .validationError →
        instantiate_embedding cls params =
          cls.construct ((eraseKey (eraseKey params "model") "headers").filter
            (fun kv => cls.fieldNames.contains kv.1)) ∧
        ∀ kv ∈ (eraseKey (eraseKey params "model") "headers").filter
            (fun kv => cls.fieldNames.contains kv.1),
          cls.fieldNames.contains kv.1 = true) ∧
    (∀ e, cls.construct (eraseKey (eraseKey params "model") "headers") = .otherError e →
        instantiate_embedding cls params = .otherError e) := by
  refine ⟨?_, containsKey_eraseKey_self _ _, ?_, ?_, ?_⟩
  · simp only [containsKey]
    have hnone : lookupParam (eraseKey (eraseKey params "model") "headers") "model" = none := by
      show lookupParam (List.filter (fun kv => kv.1 != "headers") (eraseKey params "model"))
        "model" = none
      exact lookupParam_filter_none _ _ _ (lookupParam_eraseKey_self params "model")
    rw [hnone]
    rfl
  · intro i h
    simp only [instantiate_embedding]
    rw [h]
  · intro h
    refine ⟨?_, ?_⟩
    · simp only [instantiate_embedding]
      rw [h]
    · intro kv hkv
      exact (List.mem_filter.mp hkv).2
  · intro e h
    simp only [instantiate_embedding]
    rw [h]

/-- A concrete embedding class: one declared field `"a"`, construction
fails schema validation whenever an undeclared param `"b"` is present
and otherwise succeeds with the number of params received. -/
def demoEmbedCls : EmbedCls where
  fieldNames := ["a"]
  construct := fun p => if containsKey p "b" then .validationError else .ok p.length

/-- Concrete params for the embedding adapter: `model` to be dropped,
one declared field and one undeclared field. -/
def demoEmbedParams : Params :=
  [("model", .atom (.str "m")), ("a", .atom (.int 1)), ("b", .atom (.int 2))]

/-- C7, witness: on the concrete class and params the first construction
fails validation and the retry runs on the declared-field subset. -/
theorem instantiate_embedding_spec_witness :
    instantiate_embedding demoEmbedCls demoEmbedParams =
      demoEmbedCls.construct ((eraseKey (eraseKey demoEmbedParams "model") "headers").filter
        (fun kv => demoEmbedCls.fieldNames.contains kv.1)) ∧
    instantiate_embedding demoEmbedCls demoEmbedParams = .ok 1 :=
  ⟨((instantiate_embedding_spec demoEmbedCls demoEmbedParams).2.2.2.1 rfl).1, rfl⟩

/-- C10.  A falsy override entry: when the override table has an entry
for the requested type name whose value is falsy, `instantiate_class`
neither uses the override nor fails at the override step — it behaves
exactly as with an empty override table, falling through to the external
class-library lookup. -/
theorem instantiate_class_falsy_override (tbl : OverrideTable)
    (lib : String → String → Option Nat) (loads : String → Option PValue)
    (node_type base_type : String) (params : Params) (ov : Override)
    (h : lookupOverride tbl node_type = some ov) (hf : ov.truthy = false) :
    instantiate_class tbl lib loads node_type base_type params =
      instantiate_class [] lib loads node_type base_type params := by
  cases hk : convert_kwargs loads (convert_params_to_sets params) with
  | error e => simp only [instantiate_class, bind, Except.bind, hk]
  | ok params' =>
      simp only [instantiate_class, bind, Except.bind, hk, h, hf, Bool.false_eq_true,
        if_false, lookupOverride]

/-- A one-entry override table whose entry for `"X"` is falsy and has no
`initialize` attribute. -/
def demoFalsyTable : OverrideTable := [("X", ⟨false, false⟩)]

/-- C10, witness: the fall-through applied to the concrete falsy
table. -/
theorem instantiate_class_falsy_override_witness :
    instantiate_class demoFalsyTable (fun _ _ => some 7) demoLoads "X" "llms" [] =
      instantiate_class [] (fun _ _ => some 7) demoLoads "X" "llms" [] :=
  instantiate_class_falsy_override demoFalsyTable (fun _ _ => some 7) demoLoads
    "X" "llms" [] ⟨false, false⟩ rfl rfl

/-- C1, counterexample.  An override entry can exist for the requested
type name and lack the `initialize` capability yet not be constructed:
with the falsy entry for `"X"`, `instantiate_class` dispatches to the
external class library instead of constructing the override. -/
theorem instantiate_class_override_cex :
    lookupOverride demoFalsyTable "X" = some ⟨false, false⟩ ∧
    (Override.mk false false).hasInit = false ∧
    instantiate_class demoFalsyTable (fun _ _ => some 7) demoLoads "X" "llms" []
      = .ok (.libraryDispatch 7 "llms" "X" []) ∧
    (Except.ok (InstResult.libraryDispatch 7 "llms" "X" []) : Except String InstResult)
      ≠ .ok (.overrideConstruct "X" []) := by
  refine ⟨rfl, rfl, rfl, ?_⟩
  intro h
  injection h with h2
  exact InstResult.noConfusion h2

/-- C1, amended.  Resolution checks the override table first: a truthy
entry with an `initialize` capability is a factory invoked directly with
the normalized params; a truthy entry without that capability is
constructed with the normalized params; when no entry exists — or only a
falsy one — the external class library is consulted, and its miss for
the `(category, type_name)` pair raises `UnknownComponentTypeError`
naming both. -/
theorem instantiate_class_resolution (tbl : OverrideTable)
    (lib : String → String → Option Nat) (loads : String → Option PValue)
    (node_type base_type : String) (params params' : Params)
    (hnorm : convert_kwargs loads (convert_params_to_sets params) = .ok params') :
    (∀ ov, lookupOverride tbl node_type = some ov → ov.truthy = true → ov.hasInit = true →
        instantiate_class tbl lib loads node_type base_type params
          = .ok (.factoryInit node_type params')) ∧
    (∀ ov, lookupOverride tbl node_type = some ov → ov.truthy = true → ov.hasInit = false →
        instantiate_class tbl lib loads node_type base_type params
          = .ok (.overrideConstruct node_type params')) ∧
    ((lookupOverride tbl node_type = none ∨
        ∃ ov, lookupOverride tbl node_type = some ov ∧ ov.truthy = false) →
      (∀ classId, lib base_type node_type = some classId →
          instantiate_class tbl lib loads node_type base_type params
            = .ok (.libraryDispatch classId base_type node_type params')) ∧
      (lib base_type node_type = none →
          instantiate_class tbl lib loads node_type base_type params
            = .error (unknownComponentMsg base_type node_type))) := by
  refine ⟨?_, ?_, ?_⟩
  · intro ov hov ht hi
    simp only [instantiate_class, bind, Except.bind, hnorm, hov, ht, hi, if_true,
      pure, Except.pure]
  · intro ov hov ht hi
    simp only [instantiate_class, bind, Except.bind, hnorm, hov, ht, hi,
      Bool.false_eq_true, if_false, if_true, pure, Except.pure]
  · intro hfall
    constructor
    · intro classId hc
      rcases hfall with hnone | ⟨ov, hov, hf⟩
      · simp only [instantiate_class, bind, Except.bind, hnorm, hnone, import_by_type,
          hc, pure, Except.pure]
      · simp only [instantiate_class, bind, Except.bind, hnorm, hov, hf,
          Bool.false_eq_true, if_false, import_by_type, hc, pure, Except.pure]
    · intro hc
      rcases hfall with hnone | ⟨ov, hov, hf⟩
      · simp only [instantiate_class, bind, Except.bind, hnorm, hnone, import_by_type,
          hc, pure, Except.pure]
      · simp only [instantiate_class, bind, Except.bind, hnorm, hov, hf,
          Bool.false_eq_true, if_false, import_by_type, hc, pure, Except.pure]

/-- An override table with a factory entry and a constructible entry,
both truthy. -/
def demoOverrideTable : OverrideTable := [("F", ⟨true, true⟩), ("C", ⟨true, false⟩)]

/-- C1, witness: the three resolution outcomes at concrete inputs — a
truthy factory override, a truthy constructible override, and a library
miss. -/
theorem instantiate_class_resolution_witness :
    instantiate_class demoOverrideTable (fun _ _ => none) demoLoads "F" "llms" []
      = .ok (.factoryInit "F" []) ∧
    instantiate_class demoOverrideTable (fun _ _ => none) demoLoads "C" "llms" []
      = .ok (.overrideConstruct "C" []) ∧
    instantiate_class demoOverrideTable (fun _ _ => none) demoLoads "Z" "llms" []
      = .error (unknownComponentMsg "llms" "Z") :=
  ⟨(instantiate_class_resolution demoOverrideTable (fun _ _ => none) demoLoads
      "F" "llms" [] [] rfl).1 ⟨true, true⟩ rfl rfl rfl,
   (instantiate_class_resolution demoOverrideTable (fun _ _ => none) demoLoads
      "C" "llms" [] [] rfl).2.1 ⟨true, false⟩ rfl rfl rfl,
   ((instantiate_class_resolution demoOverrideTable (fun _ _ => none) demoLoads
      "Z" "llms" [] [] rfl).2.2 (Or.inl rfl)).2 rfl⟩

/-- A document loader returning one document with pre-existing
metadata. -/
def demoDLClsOld : DocLoaderCls := ⟨fun _ => [⟨0, .atom (.str "old")⟩]⟩

/-- C8, counterexample.  A provided-but-falsy metadata param is neither
decoded nor assigned: `metadata` is provided as the textual string `""`
whose decoding fails (`demoLoads "" = none`), yet the adapter raises no
`InvalidMetadataError` and returns the loaded document with its prior
metadata intact. -/
theorem documentloader_metadata_cex :
    lookupParam [("metadata", PValue.atom (PAtom.str ""))] "metadata"
      = some (.atom (.str "")) ∧
    demoLoads "" = none ∧
    instantiate_documentloader demoLoads demoDLClsOld
        [("metadata", .atom (.str ""))]
      = .ok [⟨0, .atom (.str "old")⟩] :=
  ⟨rfl, rfl, rfl⟩

/-- C8, amended.  Whenever a truthy `metadata` param is provided, it is
decoded from JSON if textual (raising `InvalidMetadataError` when
decoding fails) and the decoded value is assigned onto the `metadata`
field of every document the loader returns, overwriting any prior
per-document metadata (a provided-but-falsy metadata is skipped, see the
counterexample). -/
theorem documentloader_metadata_spec (loads : String → Option PValue) (cls : DocLoaderCls)
    (params : Params) (md : PValue)
    (hff : lookupParam params "file_filter" = none)
    (hmd : lookupParam params "metadata" = some md)
    (ht : md.truthy = true) :
    (∀ s, md = .atom (.str s) →
        (∀ m, loads s = some m →
            instantiate_documentloader loads cls params =
              .ok ((cls.loadDocs (eraseKey params "metadata")).map
                (fun d => { d with metadata := m }))) ∧
        (loads s = none →
            instantiate_documentloader loads cls params = .error invalidMetadataMsg)) ∧
    ((∀ s, md ≠ .atom (.str s)) →
        instantiate_documentloader loads cls params =
          .ok ((cls.loadDocs (eraseKey params "metadata")).map
            (fun d => { d with metadata := md }))) := by
  constructor
  · intro s hs
    subst hs
    constructor
    · intro m hm
      simp only [instantiate_documentloader, applyFileFilter, hff, bind, Except.bind,
        hmd, ht, if_true, decodeMetadata, hm, pure, Except.pure]
    · intro hm
      simp only [instantiate_documentloader, applyFileFilter, hff, bind, Except.bind,
        hmd, ht, if_true, decodeMetadata, hm, pure, Except.pure]
  · intro hns
    have hdec : decodeMetadata loads md = .ok md := by
      cases md with
      | atom a =>
          cases a with
          | str s => exact absurd rfl (hns s)
          | int n => rfl
          | bool b => rfl
          | null => rfl
          | tool n => rfl
          | objRef i => rfl
      | list xs => rfl
      | set xs => rfl
      | dict fs => rfl
      | filterPred es => rfl
    simp only [instantiate_documentloader, applyFileFilter, hff, bind, Except.bind,
      hmd, ht, if_true, hdec, pure, Except.pure]

/-- A document loader returning two documents with differing prior
metadata. -/
def demoDLCls : DocLoaderCls := ⟨fun _ => [⟨0, .atom .null⟩, ⟨1, .atom (.str "p")⟩]⟩

/-- Concrete documentloader params: a textual metadata value decoding to
`{"source": "x"}` under `demoLoads`. -/
def demoDLParams : Params :=
  [("metadata", .atom (.str "m")), ("path", .atom (.str "f.txt"))]

/-- C8, witness: both loaded documents end with the decoded metadata
mapping, their prior metadata overwritten. -/
theorem documentloader_metadata_spec_witness :
    instantiate_documentloader demoLoads demoDLCls demoDLParams =
      .ok [⟨0, .dict [("source", .atom (.str "x"))]⟩,
           ⟨1, .dict [("source", .atom (.str "x"))]⟩] :=
  ((documentloader_metadata_spec demoLoads demoDLCls demoDLParams
      (.atom (.str "m")) rfl rfl rfl).1 "m" rfl).1
    (.dict [("source", .atom (.str "x"))]) rfl

/-- C9.  `load_agent_executor`: a missing `allowed_tools` defaults to
the empty sequence; a single bare tool instance is wrapped into a
one-element sequence, so the built executable agent's tool list has
length 1; a missing `llm_chain` is fatal. -/
theorem load_agent_executor_spec (params : Params) :
    (∀ c, lookupParam params "allowed_tools" = none →
        lookupParam params "llm_chain" = some c →
        load_agent_executor params = .ok ⟨[], c, []⟩) ∧
    (∀ n c, lookupParam params "allowed_tools" = some (.atom (.tool n)) →
        lookupParam params "llm_chain" = some c →
        load_agent_executor params = .ok ⟨[n], c, [.atom (.tool n)]⟩ ∧
        (ExecAgent.mk [n] c [.atom (.tool n)]).tools.length = 1) ∧
    (lookupParam params "llm_chain" = none →
        load_agent_executor params = .error missingChainMsg) := by
  refine ⟨?_, ?_, ?_⟩
  · intro c hat hc
    simp only [load_agent_executor, hat, hc, Option.getD, bind, Except.bind,
      toolNamesOf, pure, Except.pure]
  · intro n c hat hc
    refine ⟨?_, rfl⟩
    simp only [load_agent_executor, hat, hc, Option.getD, bind, Except.bind,
      toolNamesOf, toolName, pure, Except.pure]
  · intro hc
    cases hat : lookupParam params "allowed_tools" with
    | none =>
        simp only [load_agent_executor, hat, hc, Option.getD, bind, Except.bind,
          throw, throwThe, MonadExceptOf.throw]
    | some v =>
        simp only [load_agent_executor, hat, hc, Option.getD, bind, Except.bind,
          throw, throwThe, MonadExceptOf.throw]

/-- Concrete agent-builder params: a single bare tool and a chain. -/
def demoAgentParams : Params :=
  [("allowed_tools", .atom (.tool "t1")), ("llm_chain", .atom (.objRef 0))]

/-- C9, witness: the builder on the concrete params wraps the bare tool,
yielding a tool list of length 1. -/
theorem load_agent_executor_spec_witness :
    load_agent_executor demoAgentParams
      = .ok ⟨["t1"], .atom (.objRef 0), [.atom (.tool "t1")]⟩ ∧
    (ExecAgent.mk ["t1"] (.atom (.objRef 0)) [.atom (.tool "t1")]).tools.length = 1 :=
  (load_agent_executor_spec demoAgentParams).2.1 "t1" (.atom (.objRef 0)) rfl rfl
